import Mathlib

/-!
Verification of the inference orchestration and goodness-of-fit engine of
`nmma/em/analysis.py` (function `analysis`).  Numeric values are embedded as
rationals; IEEE special values (infinities, NaN) that the pipeline uses as
detection markers are embedded by the explicit sum type `FVal`.  External
collaborators (the forward light-curve model, the event-table loader, the
sampler backend) are modelled through their call contracts.
-/

namespace Nmma

/-- A photometric floating-point value: a finite rational, a signed infinity,
or NaN.  The pipeline stores magnitudes (real or NaN when missing) and
magnitude uncertainties (real, or +inf for a non-detection) in this form. -/
inductive FVal where
  | fin (q : ℚ)
  | inf (pos : Bool)
  | nan
deriving DecidableEq

/-- Embeds `np.isfinite`: true exactly on finite values. -/
def FVal.isfinite : FVal → Bool
  | .fin _ => true
  | _ => false

/-- Embeds `np.isnan`. -/
def FVal.isnan : FVal → Bool
  | .nan => true
  | _ => false

/-- The rational carried by a finite value (junk 0 otherwise; all uses in the
theorems below are guarded by `isfinite`). -/
def FVal.toQ : FVal → ℚ
  | .fin q => q
  | _ => 0

/-- The data-model invariant of the spec for magnitudes: real or NaN-if-missing
(never an infinity). -/
def FVal.realOrNan : FVal → Bool
  | .fin _ => true
  | .nan => true
  | .inf _ => false

/-- One row of a per-filter light-curve table: epoch, magnitude, magnitude
uncertainty (`data[filt][:, 0..2]` in analysis.py). -/
structure Point where
  t : ℚ
  mag : FVal
  sigma : FVal
deriving DecidableEq

/-- A loaded light-curve dataset: filter name to rows, as an association list
(`data` in analysis.py). -/
abbrev Dataset := List (String × List Point)

/-- Rows of the filter `f` of a dataset (`data[f]`; `[]` when absent). -/
def lookupD (d : Dataset) (f : String) : List Point :=
  match d.find? (fun fp => fp.1 == f) with
  | some fp => fp.2
  | none => []

/-- analysis.py:590-596: with `--remove-nondetections`, keep only rows with a
finite uncertainty and drop a filter that becomes empty. -/
def removeNondetections (d : Dataset) : Dataset :=
  d.filterMap (fun fp =>
    let kept := fp.2.filter (fun p => p.sigma.isfinite)
    if kept.isEmpty then none else some (fp.1, kept))

/-- analysis.py:598-611: the load-time validation.  `detection` = some filter
has a row with finite uncertainty; `notallnan` = some filter has a row with
finite magnitude (`np.isfinite(data[filt][:, 1])`).  The pipeline raises
(`ValueError`, the DataError of the spec) when the conjunction fails. -/
def checkDetectionsOk (d : Dataset) : Bool :=
  (d.any (fun fp => fp.2.any (fun p => p.sigma.isfinite))) &&
  (d.any (fun fp => fp.2.any (fun p => p.mag.isfinite)))

/-- The state of the local variable `nlive` after analysis.py:686-693. -/
inductive NliveState where
  | unbound
  | pyNone
  | fixed (n : ℕ)
deriving DecidableEq

/-- analysis.py:686-693.  Returns the state of `nlive` and whether the
reactive-sampling warning was printed.  In the branch where reactive sampling
is requested with a sampler other than ultranest, the code prints the warning
but assigns nothing to `nlive`. -/
def resolveNlive (reactiveSampling : Bool) (sampler : String) (nliveArg : ℕ) :
    NliveState × Bool :=
  if reactiveSampling then
    if sampler ≠ "ultranest" then (NliveState.unbound, true)
    else (NliveState.pyNone, false)
  else (NliveState.fixed nliveArg, false)

/-- The read of the local `nlive` at the `bilby.run_sampler` call
(analysis.py:704-716): reading an unbound local raises UnboundLocalError
before the sampler is invoked; otherwise the sampler receives None (reactive)
or the fixed live-point count. -/
def invokeSampler (s : NliveState) : Except String (Option ℕ) :=
  match s with
  | .unbound => Except.error "UnboundLocalError"
  | .pyNone => Except.ok none
  | .fixed n => Except.ok (some n)

/-- analysis.py:401-406: for the pymultinest sampler with an output-directory
name longer than 64 characters the code prints a diagnostic and calls bare
`exit()`, i.e. `SystemExit(None)`, which is process exit status 0.
`some (message, status)` means the process prints `message` and terminates
with `status` before any sampling; `none` means the run proceeds. -/
def pymultinestLengthGuard (sampler outdir : String) : Option (String × ℕ) :=
  if sampler = "pymultinest" ∧ 64 < outdir.length then
    some ("WARNING: output directory name is too long, it should not be longer than 64 characters", 0)
  else none

/-- The termination behaviour claimed for fatal configuration errors:
the process stops before sampling with a NON-zero exit status. -/
def terminatesNonzero (r : Option (String × ℕ)) : Bool :=
  match r with
  | some mc => mc.2 ≠ 0
  | none => false

/-- A 65-character output-directory name. -/
def outdir65 : String :=
  "aaaaaaaaaaaaaaaaaaaaaaaaaaaaaaaaaaaaaaaaaaaaaaaaaaaaaaaaaaaaaaaaa"

/-- A one-filter dataset whose only row is a detection (finite uncertainty,
finite magnitude), used to instantiate the validation theorem. -/
def dC4w : Dataset :=
  [ ( "g", [ { t := 1, mag := FVal.fin 20, sigma := FVal.fin (1/10) } ] ) ]

/-! ### Filter / error-budget resolver (analysis.py:613-647) -/

/-- analysis.py:628: `values_to_indices = {v: i for i, v in enumerate(filters)}`.
A dict comprehension keeps the LAST index of a repeated value.  For a value not
in the list the result is junk (one past the positions used); the code only
queries values drawn from the list. -/
def lastIdx : List String → String → ℕ
  | [], _ => 0
  | x :: xs, v => if v ∈ xs then lastIdx xs v + 1 else if x = v then 0 else lastIdx xs v + 1

/-- analysis.py:629-632:
`sorted(list(set(filters).intersection(set(data.keys()))), key=values_to_indices)`.
The intersection set is enumerated here as `(filters.filter (· ∈ loaded)).dedup`;
because the sort key is injective on the intersection, the sorted result does
not depend on which enumeration Python happens to produce. -/
def filtersToAnalyzeOf (filters loaded : List String) : List String :=
  List.insertionSort (fun a b => lastIdx filters a ≤ lastIdx filters b)
    ((filters.filter (fun f => decide (f ∈ loaded))).dedup)

/-- Outcome of the error-budget resolution: the analyzed filters together with
the per-filter budget mapping, or the
`ValueError("error_budget must be the same length as filters")` of
analysis.py:641 (the ConfigError of the spec). -/
inductive EBRes where
  | ok (filtersToAnalyze : List String) (errorBudget : List (String × ℚ))
  | lengthError
deriving DecidableEq

/-- Python list repetition `l * n`. -/
def listMul (l : List ℚ) (n : ℕ) : List ℚ := (List.replicate n l).flatten

/-- Embeds `dict(zip(fta, error_budget * len(fta)))` (analysis.py:634-637 and 645-647):
`zip` truncates at the shorter sequence, so budgets are assigned cyclically and
no length check happens. -/
def zipBudget (fta : List String) (eb : List ℚ) : List (String × ℚ) :=
  fta.zip (listMul eb fta.length)

/-- analysis.py:613-647.  `eb` is the parsed error-budget list (a scalar gives a
singleton).  `augmented` is, when augmentation filters are supplied, the
enumeration Python produced for `list(set(filters + augmentation_filters))`;
it is a parameter because set iteration order is implementation-defined
(admissible enumerations are the permutations of the deduplicated union). -/
def resolveFiltersAndBudget (requested : Option (List String))
    (augmented : Option (List String)) (loaded : List String) (eb : List ℚ) :
    EBRes :=
  match requested with
  | some req =>
    let filters := match augmented with
      | some fl => fl
      | none => req
    let fta := filtersToAnalyzeOf filters loaded
    if eb.length = 1 then EBRes.ok fta (zipBudget fta eb)
    else if req.length = eb.length then EBRes.ok fta (req.zip eb)
    else EBRes.lengthError
  | none => EBRes.ok loaded (zipBudget loaded eb)

/-! ### TimeGrid builder (analysis.py:422-431) -/

/-- Python `int()`: truncation toward zero. -/
def pyInt (q : ℚ) : ℤ := if 0 ≤ q then ⌊q⌋ else ⌈q⌉

/-- analysis.py:423-426: `n_step = args.n_tstep if args.n_tstep else
int((tmax - tmin) / dt)`.  `none`/`some 0` model a falsy `n_tstep` (the CLI
parser default is 50, which is truthy). -/
def nStepOf (nTstep : Option ℕ) (tmin tmax dt : ℚ) : ℕ :=
  match nTstep with
  | some k => if k = 0 then (pyInt ((tmax - tmin) / dt)).toNat else k
  | none => (pyInt ((tmax - tmin) / dt)).toNat

/-- Embeds `np.linspace(a, b, n)` with its endpoint included: `a + i*(b-a)/(n-1)`.
For `n = 1` numpy returns `[a]`, matching the rational convention `x/0 = 0`. -/
def linspace (a b : ℚ) (n : ℕ) : List ℚ :=
  (List.range n).map (fun (i : ℕ) => a + (b - a) * (i : ℚ) / ((n : ℚ) - 1))

/-- analysis.py:427-429: `np.logspace(log10(tmin), log10(tmax + dt), n_step)`.
`np.logspace(a, b, n)` is `10 ** np.linspace(a, b, n)`; we track the exponent
sequence, with `lg` a parameter standing for `log10`.  Since `x ↦ 10^x` is a
strictly increasing bijection, the length and ordering facts proved below
transfer verbatim to the actual sample times. -/
def sampleTimesLog (lg : ℚ → ℚ) (tmin tmax dt : ℚ) (nTstep : Option ℕ) : List ℚ :=
  linspace (lg tmin) (lg (tmax + dt)) (nStepOf nTstep tmin tmax dt)

/-- Embeds `np.arange(start, stop, step)` for positive step: `start + i*step` for
`i < ⌈(stop - start)/step⌉` (the stop value itself is excluded). -/
def arange (start stop step : ℚ) : List ℚ :=
  (List.range (⌈(stop - start) / step⌉.toNat)).map (fun (i : ℕ) => start + step * (i : ℚ))

/-- analysis.py:431: `np.arange(tmin, tmax + dt, dt)`. -/
def sampleTimesLinear (tmin tmax dt : ℚ) : List ℚ := arange tmin (tmax + dt) dt

/-! ### Best-fit / goodness-of-fit engine (analysis.py:771-845) -/

/-- The best-fit parameter fields consulted by the chi-square block: an
optional `timeshift` and an optional `em_syserr` entry of the posterior row
(analysis.py:799, 822, 828). -/
structure BestFitParams where
  timeshift : Option ℚ
  em_syserr : Option ℚ
deriving DecidableEq

/-- Modelled from the spec: `dataProcess` (from `nmma.em.utils`, not under
src/) applies "the same trigger-time/window selection as inference": for each
requested filter keep the points with trigger+tmin ≤ epoch ≤ trigger+tmax and
re-express their epochs relative to the trigger time. -/
def dataProcess (d : Dataset) (filters : List String) (trigger tmin tmax : ℚ) :
    Dataset :=
  filters.map (fun f =>
    (f, ((lookupD d f).filter
          (fun p => decide (trigger + tmin ≤ p.t) && decide (p.t ≤ trigger + tmax))).map
        (fun p => { p with t := p.t - trigger })))

/-- Embeds `scipy.interpolate.interp1d(xs, ys)` evaluated at one abscissa: linear
interpolation on consecutive knots, assuming strictly increasing knot
abscissae.  scipy raises out of range; evaluation there is junk here (all
theorems below evaluate in range). -/
def interpSeg : List (ℚ × ℚ) → ℚ → ℚ
  | [], _ => 0
  | [ p ], _ => p.2
  | p :: q :: rest, x =>
    if x ≤ q.1 then p.2 + (q.2 - p.2) * (x - p.1) / (q.1 - p.1)
    else interpSeg (q :: rest) x

/-- analysis.py:813-843, the per-filter body of the chi-square loop: the
best-fit sample times are the grid shifted by `timeshift` when present
(analysis.py:799-802), the interpolant is built on them (817), the observed
epochs are ALSO shifted by `timeshift` (822-823), only finite-uncertainty
points are kept (825), the effective error is `em_syserr` when present and the
static budget otherwise (828-831), and the result is the per-filter chi-square
together with its degree-of-freedom count. -/
def chi2Filt (sampleTimes magf : List ℚ) (p : BestFitParams) (errBudget : ℚ)
    (pts : List Point) : ℚ × ℕ :=
  let bft : List ℚ := match p.timeshift with
    | some ts => sampleTimes.map (fun x => x + ts)
    | none => sampleTimes
  let knots := bft.zip magf
  let shifted : List Point := match p.timeshift with
    | some ts => pts.map (fun q => { q with t := q.t + ts })
    | none => pts
  let dets := shifted.filter (fun q => q.sigma.isfinite)
  let err := p.em_syserr.getD errBudget
  ((dets.map (fun q =>
      (q.mag.toQ - interpSeg knots q.t) ^ 2 / (q.sigma.toQ ^ 2 + err ^ 2))).sum,
   dets.length)

/-- The formula asserted by claim C1, following its words: the interpolant of
the SHIFTED trajectory evaluated at the UNSHIFTED window-selected observed
epochs. -/
def chi2FiltClaim (sampleTimes magf : List ℚ) (p : BestFitParams) (errBudget : ℚ)
    (pts : List Point) : ℚ :=
  let bft : List ℚ := match p.timeshift with
    | some ts => sampleTimes.map (fun x => x + ts)
    | none => sampleTimes
  let knots := bft.zip magf
  let dets := pts.filter (fun q => q.sigma.isfinite)
  let err := p.em_syserr.getD errBudget
  (dets.map (fun q =>
      (q.mag.toQ - interpSeg knots q.t) ^ 2 / (q.sigma.toQ ^ 2 + err ^ 2))).sum

/-- The regenerated per-filter magnitude trajectories of the best-fit row
(`mag[filt]` after the distance-modulus correction of analysis.py:791-796; the
forward model itself is an external collaborator). -/
abbrev MagTable := List (String × List ℚ)

/-- Looks up `mag[f]` (`[]` when absent; analyzed filters always have an entry). -/
def lookupM (m : MagTable) (f : String) : List ℚ :=
  ((m.find? (fun x => x.1 == f)).map (fun x => x.2)).getD []

/-- Looks up `error_budget[f]` (junk 0 when absent; analyzed filters always have an
entry). -/
def lookupB (m : List (String × ℚ)) (f : String) : ℚ :=
  ((m.find? (fun x => x.1 == f)).map (fun x => x.2)).getD 0

/-- analysis.py:807-843: the chi-square loop over the analyzed filters,
accumulating total chi-square, total degrees of freedom and the per-filter
chi-square-per-dof table; a filter with no windowed detection is skipped
(len(finite_idx) = 0). -/
def chi2Engine (sampleTimes : List ℚ) (mag : MagTable) (p : BestFitParams)
    (eb : List (String × ℚ)) (fta : List String) (d : Dataset)
    (trigger tmin tmax : ℚ) : ℚ × ℕ × List (String × ℚ) :=
  let pd := dataProcess d fta trigger tmin tmax
  fta.foldl
    (fun acc f =>
      let r := chi2Filt sampleTimes (lookupM mag f) p (lookupB eb f) (lookupD pd f)
      if 0 < r.2 then (acc.1 + r.1, acc.2.1 + r.2, acc.2.2 ++ [ (f, r.1 / (r.2 : ℚ)) ])
      else acc)
    (0, 0, [])

/-- analysis.py:845: `chi2_per_dof = chi2 / dof`.  When the total degrees of
freedom is zero this is Python float `0.0 / 0.0`, a ZeroDivisionError (the
DataError of the spec): no value is produced, modelled as `none`. -/
def chi2PerDofResult (sampleTimes : List ℚ) (mag : MagTable) (p : BestFitParams)
    (eb : List (String × ℚ)) (fta : List String) (d : Dataset)
    (trigger tmin tmax : ℚ) : Option ℚ :=
  let r := chi2Engine sampleTimes mag p eb fta d trigger tmin tmax
  if r.2.1 = 0 then none else some (r.1 / (r.2.1 : ℚ))

/-! ### Dataset ownership across the run (analysis.py:807-1001) -/

/-- analysis.py:881-891: the filters that get a panel in the light-curve plot:
present in the data and holding at least one non-NaN magnitude. -/
def filtersPlot (fta : List String) (d : Dataset) : List String :=
  fta.filter (fun f =>
    (d.find? (fun fp => fp.1 == f)).isSome &&
      !((lookupD d f).filter (fun p => !p.mag.isnan)).isEmpty)

/-- analysis.py:907-909: in the plot loop, `samples = data[filt]` aliases the
stored array and `t = samples[:, 0]` is a numpy view, so `t -= trigger_time`
subtracts the trigger time from the stored epoch column in place for every
plotted filter. -/
def plotStageData (d : Dataset) (plotted : List String) (trigger : ℚ) : Dataset :=
  d.map (fun e =>
    if e.1 ∈ plotted then (e.1, e.2.map (fun p => { p with t := p.t - trigger }))
    else e)

/-- analysis.py:815-823: the chi-square block reads each filter through
`copy.deepcopy(processed_data[filt])` and mutates only that copy, so the stored
dataset is returned unchanged. -/
def chi2StageData (d : Dataset) : Dataset := d

/-- The stored dataset after the post-load stages of one run: the chi-square
phase, then — when plotting is enabled — the plot loop. -/
def runData (d : Dataset) (fta : List String) (trigger : ℚ) (plot : Bool) :
    Dataset :=
  let d1 := chi2StageData d
  if plot then plotStageData d1 (filtersPlot fta d1) trigger else d1

/-- Concrete one-point dataset for the C1 counterexample: a single g-band
detection at epoch 2 with magnitude 0 and uncertainty 1. -/
def dC1 : Dataset :=
  [ ( "g", [ { t := 2, mag := FVal.fin 0, sigma := FVal.fin 1 } ] ) ]

/-- Concrete one-point dataset for the C6 counterexample. -/
def dC6 : Dataset :=
  [ ( "g", [ { t := 5, mag := FVal.fin 1, sigma := FVal.fin 1 } ] ) ]

/-- Concrete best-fit trajectory table, parameters and budget used to
instantiate the goodness-of-fit theorems. -/
def mC8 : MagTable := [ ( "g", [ 0, 2 ] ) ]

def pC8 : BestFitParams := { timeshift := none, em_syserr := none }

def ebC8 : List (String × ℚ) := [ ( "g", 0) ]

/-! ### Six-column injection output table (analysis.py:500-565) -/

/-- One row of the six-column injection output table
(jd, mag, mag_unc, filter, limmag, programid), analysis.py:528-561. -/
structure OutRow where
  jd : ℚ
  mag : FVal
  mag_unc : FVal
  filt : String
  limmag : FVal
  programid : ℚ
deriving DecidableEq

/-- analysis.py:528-559: serialization of one synthesized point
(mjd, mag, mag_unc) of filter `filt`.  `detLimit` is `detection_limit[filt]`
when the dict has an entry for the filter (np.inf for every requested filter
when no explicit per-filter limit is given), and `none` when absent. -/
def injectionOutRow (filt : String) (detLimit : Option FVal) (mjd : ℚ)
    (m munc : FVal) : OutRow :=
  if !munc.isfinite then
    { jd := mjd, mag := FVal.fin 99, mag_unc := FVal.fin 99, filt := filt,
      limmag := m, programid := 0 }
  else
    match detLimit with
    | some dl =>
      { jd := mjd, mag := m, mag_unc := munc, filt := filt, limmag := dl,
        programid := 0 }
    | none =>
      { jd := mjd, mag := m, mag_unc := munc, filt := filt,
        limmag := FVal.inf true, programid := 0 }

/-- Modelled from the spec: reloading the serialized table through the
event-table loader (`loadEvent`, from `nmma.em.io`, not under src/) classifies
a row by the glossary rule "Detection: photometric point with finite
measurement uncertainty". -/
def reloadIsDetection (r : OutRow) : Bool := r.mag_unc.isfinite

end Nmma

namespace Nmma

/-- C4: under the data-model invariant that magnitudes
are real-or-NaN, the load-time validation passes exactly when some filter has a
point with finite uncertainty and some (possibly different) filter has a point
with non-NaN magnitude; in particular a dataset that is all non-detections
fails it. -/
theorem detection_validation (d : Dataset)
    (hmag : ∀ fp ∈ d, ∀ p ∈ fp.2, (Point.mag p).realOrNan = true) :
    checkDetectionsOk d = true ↔
      ((∃ fp ∈ d, ∃ p ∈ fp.2, p.sigma.isfinite = true) ∧
       (∃ fp ∈ d, ∃ p ∈ fp.2, p.mag.isnan = false)) := by
  unfold checkDetectionsOk
  simp only [Bool.and_eq_true, List.any_eq_true]
  constructor
  · rintro ⟨⟨fp1, h1, p1, hp1, hf1⟩, ⟨fp2, h2, p2, hp2, hf2⟩⟩
    refine ⟨⟨fp1, h1, p1, hp1, hf1⟩, ⟨fp2, h2, p2, hp2, ?_⟩⟩
    cases hm : p2.mag with
    | fin q => simp [FVal.isnan]
    | inf b => simp [FVal.isnan]
    | nan => rw [hm] at hf2; simp [FVal.isfinite] at hf2
  · rintro ⟨⟨fp1, h1, p1, hp1, hf1⟩, ⟨fp2, h2, p2, hp2, hf2⟩⟩
    refine ⟨⟨fp1, h1, p1, hp1, hf1⟩, ⟨fp2, h2, p2, hp2, ?_⟩⟩
    have := hmag fp2 h2 p2 hp2
    cases hm : p2.mag with
    | fin q => simp [FVal.isfinite]
    | inf b => rw [hm] at this; simp [FVal.realOrNan] at this
    | nan => rw [hm] at hf2; simp [FVal.isnan] at hf2

/-- Witness for `detection_validation` at a concrete dataset. -/
theorem detection_validation_witness :
    (∀ fp ∈ dC4w, ∀ p ∈ fp.2, (Point.mag p).realOrNan = true) ∧
      (checkDetectionsOk dC4w = true ↔
        ((∃ fp ∈ dC4w, ∃ p ∈ fp.2, p.sigma.isfinite = true) ∧
         (∃ fp ∈ dC4w, ∃ p ∈ fp.2, p.mag.isnan = false))) :=
  ⟨by decide, detection_validation dC4w (by decide)⟩

/-- C2 (code evaluated at the failing input): requesting reactive sampling with
a non-ultranest sampler prints the warning but leaves the local `nlive`
unassigned, so the subsequent `bilby.run_sampler(..., nlive=nlive, ...)` call
raises UnboundLocalError instead of falling back to the fixed live-point
count. -/
theorem reactive_nonultranest_crashes :
    resolveNlive true "dynesty" 2048 = (NliveState.unbound, true) ∧
      invokeSampler (resolveNlive true "dynesty" 2048).1 =
        Except.error "UnboundLocalError" := by
  constructor
  · rfl
  · rfl

/-- C9 (amended): the pymultinest output-directory length guard fires exactly
when the sampler is pymultinest and the directory name exceeds 64 characters;
whenever it fires it prints a diagnostic and terminates BEFORE sampling, but
always with exit status 0 (bare `exit()`), never a non-zero status. -/
theorem pymultinest_guard_behavior (sampler outdir : String) :
    ((pymultinestLengthGuard sampler outdir).isSome = true ↔
      (sampler = "pymultinest" ∧ 64 < outdir.length)) ∧
    (∀ m c, pymultinestLengthGuard sampler outdir = some (m, c) → c = 0) := by
  constructor
  · unfold pymultinestLengthGuard
    split
    · rename_i h
      simpa using h
    · rename_i h
      simp only [Option.isSome_none, Bool.false_eq_true, false_iff]
      exact h
  · intro m c h
    unfold pymultinestLengthGuard at h
    split at h
    · simp at h
      exact h.2.symm
    · simp at h

/-- Witness for `pymultinest_guard_behavior` at a concrete configuration. -/
theorem pymultinest_guard_behavior_witness :
    (((pymultinestLengthGuard "pymultinest" outdir65).isSome = true ↔
        ("pymultinest" = "pymultinest" ∧ 64 < outdir65.length)) ∧
      (∀ m c, pymultinestLengthGuard "pymultinest" outdir65 = some (m, c) → c = 0)) :=
  pymultinest_guard_behavior "pymultinest" outdir65

/-- C9 counterexample: with the pymultinest sampler and a 65-character output
directory, the run does terminate before sampling (the guard fires), but the
exit status is 0, refuting the claim that every fatal configuration error
terminates with a non-zero exit status. -/
theorem pymultinest_exit_status_counterexample :
    (pymultinestLengthGuard "pymultinest" outdir65).isSome = true ∧
      terminatesNonzero (pymultinestLengthGuard "pymultinest" outdir65) = false := by
  constructor
  · decide
  · decide

/-! ### Filter / error-budget resolver: theorems -/

theorem zip_replicate_self (fta : List String) (e : ℚ) :
    fta.zip (List.replicate fta.length e) = fta.map (fun f => (f, e)) := by
  induction fta with
  | nil => rfl
  | cons x xs ih => simp [List.replicate_succ, ih]

theorem listMul_singleton (e : ℚ) (n : ℕ) : listMul [ e ] n = List.replicate n e := by
  induction n with
  | zero => rfl
  | succ k ih => simp only [listMul, List.replicate_succ, List.flatten_cons] at ih ⊢; simp [ih]

theorem zipBudget_singleton (fta : List String) (e : ℚ) :
    zipBudget fta [ e ] = fta.map (fun f => (f, e)) := by
  unfold zipBudget
  rw [listMul_singleton, zip_replicate_self]

theorem lastIdx_cons_of_mem {xs : List String} (x : String) {a : String} (ha : a ∈ xs) :
    lastIdx (x :: xs) a = lastIdx xs a + 1 := by
  simp [lastIdx, ha]

theorem pairwise_lastIdx (l : List String) (h : l.Nodup) :
    l.Pairwise (fun a b => lastIdx l a ≤ lastIdx l b) := by
  induction l with
  | nil => exact List.Pairwise.nil
  | cons x xs ih =>
    rcases List.nodup_cons.mp h with ⟨hx, hxs⟩
    refine List.Pairwise.cons ?_ ?_
    · intro b _
      have hx0 : lastIdx (x :: xs) x = 0 := by simp [lastIdx, hx]
      simp [hx0]
    · refine (ih hxs).imp_of_mem ?_
      intro a b ha hb hab
      rw [lastIdx_cons_of_mem x ha, lastIdx_cons_of_mem x hb]
      omega

/-- Without augmentation filters and with a duplicate-free requested list, the
analyzed filters are the requested filters restricted to the loaded ones, in
requested order. -/
theorem filtersToAnalyze_noaug (req loaded : List String) (h : req.Nodup) :
    filtersToAnalyzeOf req loaded = req.filter (fun f => decide (f ∈ loaded)) := by
  unfold filtersToAnalyzeOf
  have hnd : (req.filter (fun f => decide (f ∈ loaded))).Nodup := h.filter _
  rw [hnd.dedup]
  refine List.Sorted.insertionSort_eq ?_
  exact (pairwise_lastIdx req h).sublist (List.filter_sublist req)

/-- C3 counterexample: requested filters g,r, loaded data containing only g (so
exactly one analyzed filter), no augmentation filters, and the two-entry
error-budget list 0.1,0.2.  The claim demands a ConfigError (list length 2 is
neither the analyzed-filter count 1 nor covered by the augmentation clause);
the code instead succeeds, keying the budget by the REQUESTED filters, so the
resulting budget also fails to cover exactly the analyzed filters. -/
theorem error_budget_length_counterexample :
    resolveFiltersAndBudget (some [ "g", "r" ]) none [ "g" ] [ 1, 2 ]
        = EBRes.ok [ "g" ] [ ( "g", 1), ( "r", 2) ] ∧
      (filtersToAnalyzeOf [ "g", "r" ] [ "g" ]).length = 1 := by
  constructor
  · decide
  · decide

/-- C3 (amended): with a requested-filter list, a multi-entry error-budget list
must match the REQUESTED-filter count (whether or not augmentation filters are
present) — any other multi-entry length is the ConfigError — and the resulting
budget is keyed by the requested filters; without a requested-filter list no
length check is performed at all (budgets are assigned cyclically to the loaded
filters); a single scalar is broadcast to exactly the analyzed filters. -/
theorem error_budget_resolution (req loaded : List String) (aug : Option (List String))
    (eb : List ℚ) (e : ℚ) :
    (resolveFiltersAndBudget (some req) aug loaded eb = EBRes.lengthError ↔
      (eb.length ≠ 1 ∧ req.length ≠ eb.length)) ∧
    (resolveFiltersAndBudget none aug loaded eb ≠ EBRes.lengthError) ∧
    (resolveFiltersAndBudget (some req) aug loaded [ e ]
        = EBRes.ok (filtersToAnalyzeOf (aug.getD req) loaded)
            ((filtersToAnalyzeOf (aug.getD req) loaded).map (fun f => (f, e)))) ∧
    (eb.length ≠ 1 → req.length = eb.length →
      resolveFiltersAndBudget (some req) aug loaded eb
        = EBRes.ok (filtersToAnalyzeOf (aug.getD req) loaded) (req.zip eb)) := by
  cases aug with
  | none =>
    refine ⟨?_, ?_, ?_, ?_⟩
    · simp only [resolveFiltersAndBudget]
      split_ifs with hc1 hc2
      · simp [hc1]
      · simp [hc1, hc2]
      · simp [hc1, hc2]
    · simp [resolveFiltersAndBudget]
    · simp [resolveFiltersAndBudget, zipBudget_singleton, Option.getD]
    · intro hne heq
      simp [resolveFiltersAndBudget, hne, heq, Option.getD]
  | some fl =>
    refine ⟨?_, ?_, ?_, ?_⟩
    · simp only [resolveFiltersAndBudget]
      split_ifs with hc1 hc2
      · simp [hc1]
      · simp [hc1, hc2]
      · simp [hc1, hc2]
    · simp [resolveFiltersAndBudget]
    · simp [resolveFiltersAndBudget, zipBudget_singleton, Option.getD]
    · intro hne heq
      simp [resolveFiltersAndBudget, hne, heq, Option.getD]

/-- Witness for `error_budget_resolution` at a concrete configuration. -/
theorem error_budget_resolution_witness :
    (resolveFiltersAndBudget (some [ "g", "r" ]) none [ "g" ] [ 3, 2 ] = EBRes.lengthError ↔
      (([ 3, 2 ] : List ℚ).length ≠ 1 ∧ ([ "g", "r" ] : List String).length ≠ ([ 3, 2 ] : List ℚ).length)) ∧
    (resolveFiltersAndBudget none none [ "g" ] [ 3, 2 ] ≠ EBRes.lengthError) ∧
    (resolveFiltersAndBudget (some [ "g", "r" ]) none [ "g" ] [ (5 : ℚ) ]
        = EBRes.ok (filtersToAnalyzeOf ((none : Option (List String)).getD [ "g", "r" ]) [ "g" ])
            ((filtersToAnalyzeOf ((none : Option (List String)).getD [ "g", "r" ]) [ "g" ]).map (fun f => (f, (5 : ℚ))))) ∧
    (([ 3, 2 ] : List ℚ).length ≠ 1 → ([ "g", "r" ] : List String).length = ([ 3, 2 ] : List ℚ).length →
      resolveFiltersAndBudget (some [ "g", "r" ]) none [ "g" ] [ 3, 2 ]
        = EBRes.ok (filtersToAnalyzeOf ((none : Option (List String)).getD [ "g", "r" ]) [ "g" ])
            ([ "g", "r" ].zip [ 3, 2 ])) :=
  error_budget_resolution [ "g", "r" ] [ "g" ] none [ 3, 2 ] 5

/-- C7 counterexample: with requested filters g,r, augmentation filter z and
all three loaded, the enumeration r,z,g is an admissible Python iteration order
of `set(["g", "r"] + ["z"])` (a permutation of the union); on it the code
analyzes the filters in the order r,z,g, placing r BEFORE g even though the
requested list orders g before r — so the analyzed order does not preserve the
requested order. -/
theorem augmentation_order_counterexample :
    (([ "r", "z", "g" ] : List String).Perm ((([ "g", "r" ] : List String) ++ [ "z" ]).dedup)) ∧
    filtersToAnalyzeOf [ "r", "z", "g" ] [ "g", "r", "z" ] = [ "r", "z", "g" ] ∧
    (filtersToAnalyzeOf [ "r", "z", "g" ] [ "g", "r", "z" ]).indexOf "r" <
      (filtersToAnalyzeOf [ "r", "z", "g" ] [ "g", "r", "z" ]).indexOf "g" := by
  refine ⟨by decide, by decide, by decide⟩

/-- C7 (amended): for every admissible enumeration of
`set(requested + augmentation)` the SET of analyzed filters is the intersection
of requested-plus-augmentation with the loaded filters, but the order is
determined by that (hash-dependent) enumeration; without augmentation filters
(and a duplicate-free requested list) the analyzed list is exactly the
requested list restricted to loaded filters, preserving requested order. -/
theorem filters_to_analyze_spec (req aug loaded σ : List String)
    (hσ : σ.Perm ((req ++ aug).dedup)) :
    (∀ x, x ∈ filtersToAnalyzeOf σ loaded ↔ ((x ∈ req ∨ x ∈ aug) ∧ x ∈ loaded)) ∧
    (req.Nodup → filtersToAnalyzeOf req loaded = req.filter (fun f => decide (f ∈ loaded))) := by
  constructor
  · intro x
    unfold filtersToAnalyzeOf
    rw [List.mem_insertionSort, List.mem_dedup, List.mem_filter]
    rw [hσ.mem_iff]
    simp [List.mem_dedup, List.mem_append]
  · exact filtersToAnalyze_noaug req loaded

/-! ### TimeGrid builder: theorems -/

theorem linspace_length (a b : ℚ) (n : ℕ) : (linspace a b n).length = n := by
  simp only [linspace, List.length_map, List.length_range]

theorem linspace_get (a b : ℚ) (n i : ℕ) (h : i < (linspace a b n).length) :
    (linspace a b n).get ⟨i, h⟩ = a + (b - a) * i / ((n : ℚ) - 1) := by
  simp only [linspace, List.get_eq_getElem, List.getElem_map, List.getElem_range]

theorem linspace_chain {a b : ℚ} (hab : a < b) (n : ℕ) :
    List.Chain' (· < ·) (linspace a b n) := by
  rw [List.chain'_iff_get]
  intro i hi
  rw [linspace_get, linspace_get]
  have hi2 : i + 1 < n := by
    rw [linspace_length] at hi
    omega
  have hden : (0 : ℚ) < (n : ℚ) - 1 := by
    have : (2 : ℕ) ≤ n := by omega
    have : (2 : ℚ) ≤ (n : ℚ) := by exact_mod_cast this
    linarith
  have hnum : (b - a) * (i : ℚ) < (b - a) * ((i : ℚ) + 1) := by
    have hba : (0 : ℚ) < b - a := by linarith
    nlinarith
  have hdiv : (b - a) * (i : ℚ) / ((n : ℚ) - 1) < (b - a) * ((i : ℚ) + 1) / ((n : ℚ) - 1) :=
    (div_lt_div_iff_of_pos_right hden).mpr hnum
  push_cast
  linarith

theorem arange_length (start stop step : ℚ) :
    (arange start stop step).length = (⌈(stop - start) / step⌉).toNat := by
  simp only [arange, List.length_map, List.length_range]

theorem arange_get (start stop step : ℚ) (i : ℕ) (h : i < (arange start stop step).length) :
    (arange start stop step).get ⟨i, h⟩ = start + step * i := by
  simp only [arange, List.get_eq_getElem, List.getElem_map, List.getElem_range]

theorem arange_chain (start stop : ℚ) {step : ℚ} (hstep : 0 < step) :
    List.Chain' (· < ·) (arange start stop step) := by
  rw [List.chain'_iff_get]
  intro i hi
  rw [arange_get, arange_get]
  push_cast
  nlinarith

theorem arange_lt_stop {start stop step : ℚ} (hstep : 0 < step) (i : ℕ)
    (h : i < (arange start stop step).length) :
    (arange start stop step).get ⟨i, h⟩ < stop := by
  rw [arange_get]
  have hlen : i < (⌈(stop - start) / step⌉).toNat := by
    rw [arange_length] at h
    exact h
  have hiz : (i : ℤ) < ⌈(stop - start) / step⌉ := by omega
  have hq : (i : ℚ) < (stop - start) / step := by
    have := Int.lt_ceil.mp hiz
    exact_mod_cast this
  have hmul := (lt_div_iff₀ hstep).mp hq
  linarith

/-- C5 counterexample: with tmin = 1, tmax = 2, dt = 2/5 (a valid input) and
log spacing, `(tmax - tmin)/dt = 5/2`, so the claimed point count
`ceil(5/2) = 3` matches neither the falsy-step-count path (Python
`int(5/2) = 2` points, truncation not ceiling) nor the CLI-default path
(`n_tstep = 50` is truthy, giving 50 points). -/
theorem timegrid_count_counterexample :
    (sampleTimesLog (fun x => x) 1 2 (2/5) none).length ≠ (⌈(((2 : ℚ) - 1) / (2/5))⌉).toNat ∧
    (sampleTimesLog (fun x => x) 1 2 (2/5) (some 50)).length ≠ (⌈(((2 : ℚ) - 1) / (2/5))⌉).toNat := by
  have hq : ((2 : ℚ) - 1) / (2/5) = 5/2 := by norm_num
  have hfl : ⌊(5/2 : ℚ)⌋ = 2 := by
    rw [Int.floor_eq_iff] <;> norm_num
  have hcl : ⌈(5/2 : ℚ)⌉ = 3 := by
    rw [Int.ceil_eq_iff] <;> norm_num
  constructor
  · rw [sampleTimesLog, linspace_length]
    simp only [nStepOf, pyInt]
    rw [hq, hcl, if_pos (by norm_num : (0 : ℚ) ≤ 5/2), hfl]
    decide
  · rw [sampleTimesLog, linspace_length]
    simp only [nStepOf]
    rw [if_neg (by norm_num : ¬(50 = 0)), hq, hcl]
    decide

/-- C5 (amended): for valid inputs (0 < tmin < tmax, 0 < dt), with log spacing
and a FALSY supplied step count (None or 0 — the CLI default is the truthy 50,
in which case the grid simply has 50 points), the grid has
`int((tmax - tmin)/dt)` points (Python truncation, i.e. floor here, not
ceiling), log-uniformly spaced between tmin and tmax+dt inclusive; in both
modes the output is strictly increasing (and, being exact rationals, NaN-free);
without log spacing it is the arithmetic sequence tmin + i*dt capped strictly
below tmax + dt. -/
theorem timegrid_spec (lg : ℚ → ℚ) (tmin tmax dt : ℚ)
    (h1 : 0 < tmin) (h2 : tmin < tmax) (h3 : 0 < dt) :
    ((sampleTimesLog lg tmin tmax dt none).length = (⌊(tmax - tmin) / dt⌋).toNat) ∧
    (∀ n : ℕ, n ≠ 0 → (sampleTimesLog lg tmin tmax dt (some n)).length = n) ∧
    (∀ nT : Option ℕ, lg tmin < lg (tmax + dt) →
      List.Chain' (· < ·) (sampleTimesLog lg tmin tmax dt nT)) ∧
    List.Chain' (· < ·) (sampleTimesLinear tmin tmax dt) ∧
    (∀ i (h : i < (sampleTimesLinear tmin tmax dt).length),
      (sampleTimesLinear tmin tmax dt).get ⟨i, h⟩ = tmin + dt * i ∧
      (sampleTimesLinear tmin tmax dt).get ⟨i, h⟩ < tmax + dt) := by
  have hpos : (0 : ℚ) ≤ (tmax - tmin) / dt := le_of_lt (div_pos (by linarith) h3)
  refine ⟨?_, ?_, ?_, ?_, ?_⟩
  · rw [sampleTimesLog, linspace_length]
    simp only [nStepOf, pyInt, if_pos hpos]
  · intro n hn
    rw [sampleTimesLog, linspace_length]
    simp [nStepOf, hn]
  · intro nT hlg
    exact linspace_chain hlg _
  · exact arange_chain tmin (tmax + dt) h3
  · intro i h
    exact ⟨arange_get tmin (tmax + dt) dt i h, arange_lt_stop h3 i h⟩

/-- Witness for `timegrid_spec` at tmin = 1, tmax = 2, dt = 2/5. -/
theorem timegrid_spec_witness :
    ((0 : ℚ) < 1 ∧ (1 : ℚ) < 2 ∧ (0 : ℚ) < 2/5) ∧
    (((sampleTimesLog (fun x => x) 1 2 (2/5) none).length = (⌊((2 : ℚ) - 1) / (2/5)⌋).toNat) ∧
     (∀ n : ℕ, n ≠ 0 → (sampleTimesLog (fun x => x) 1 2 (2/5) (some n)).length = n) ∧
     (∀ nT : Option ℕ, (fun (x : ℚ) => x) 1 < (fun (x : ℚ) => x) (2 + 2/5) →
       List.Chain' (· < ·) (sampleTimesLog (fun x => x) 1 2 (2/5) nT)) ∧
     List.Chain' (· < ·) (sampleTimesLinear 1 2 (2/5)) ∧
     (∀ i (h : i < (sampleTimesLinear 1 2 (2/5)).length),
       (sampleTimesLinear 1 2 (2/5)).get ⟨i, h⟩ = 1 + (2/5) * i ∧
       (sampleTimesLinear 1 2 (2/5)).get ⟨i, h⟩ < 2 + 2/5)) :=
  ⟨⟨by norm_num, by norm_num, by norm_num⟩,
    timegrid_spec (fun x => x) 1 2 (2/5) (by norm_num) (by norm_num) (by norm_num)⟩

/-- Witness for `filters_to_analyze_spec` at a concrete configuration. -/
theorem filters_to_analyze_spec_witness :
    (∀ x, x ∈ filtersToAnalyzeOf [ "g", "r", "z" ] [ "g", "r" ] ↔
        ((x ∈ ([ "g", "r" ] : List String) ∨ x ∈ ([ "z" ] : List String)) ∧ x ∈ ([ "g", "r" ] : List String))) ∧
    (([ "g", "r" ] : List String).Nodup →
      filtersToAnalyzeOf [ "g", "r" ] [ "g", "r" ]
        = ([ "g", "r" ] : List String).filter (fun f => decide (f ∈ ([ "g", "r" ] : List String)))) :=
  filters_to_analyze_spec [ "g", "r" ] [ "z" ] [ "g", "r" ] [ "g", "r", "z" ] (by decide)

/-! ### Goodness-of-fit engine: theorems -/

theorem zip_map_add (c : ℚ) : ∀ (l m : List ℚ),
    (l.map (fun x => x + c)).zip m = (l.zip m).map (fun p => (p.1 + c, p.2))
  | [], _ => rfl
  | _ :: _, [] => rfl
  | x :: l, y :: m => by simp [zip_map_add c l m]

theorem interpSeg_shift (c : ℚ) : ∀ (kn : List (ℚ × ℚ)) (x : ℚ),
    interpSeg (kn.map (fun p => (p.1 + c, p.2))) (x + c) = interpSeg kn x
  | [], _ => rfl
  | [ p ], _ => rfl
  | p :: q :: rest, x => by
    simp only [List.map_cons, interpSeg]
    have hiff : x + c ≤ q.1 + c ↔ x ≤ q.1 := by
      constructor <;> intro h <;> linarith
    by_cases hx : x ≤ q.1
    · rw [if_pos (hiff.mpr hx), if_pos hx]
      ring_nf
    · rw [if_neg (fun hc => hx (hiff.mp hc)), if_neg hx]
      have hrec := interpSeg_shift c (q :: rest) x
      simpa using hrec

/-- C1 counterexample: grid [0, 2], trajectory [0, 2], timeshift 1, no
em_syserr, zero static budget, and a single windowed g-band detection at epoch
2 with magnitude 0 and uncertainty 1.  The code (which also shifts the
observed epoch) yields chi-square 4, while the claimed formula (shifted
interpolant at the UNSHIFTED epoch) yields 1. -/
theorem chi2_timeshift_counterexample :
    (chi2Filt [ 0, 2 ] [ 0, 2 ] { timeshift := some 1, em_syserr := none } 0
        (lookupD (dataProcess dC1 [ "g" ] 0 0 10) "g")).1
      ≠ chi2FiltClaim [ 0, 2 ] [ 0, 2 ] { timeshift := some 1, em_syserr := none } 0
          (lookupD (dataProcess dC1 [ "g" ] 0 0 10) "g") := by
  have hd : lookupD (dataProcess dC1 [ "g" ] 0 0 10) "g"
      = [ { t := 2, mag := FVal.fin 0, sigma := FVal.fin 1 } ] := by
    norm_num [dataProcess, lookupD, dC1, List.filter, Point.mk.injEq]
  rw [hd]
  have h1 : (chi2Filt [ 0, 2 ] [ 0, 2 ] { timeshift := some 1, em_syserr := none } 0
      [ { t := 2, mag := FVal.fin 0, sigma := FVal.fin 1 } ]).1 = 4 := by
    norm_num [chi2Filt, interpSeg, FVal.isfinite, FVal.toQ, List.filter]
  have h2 : chi2FiltClaim [ 0, 2 ] [ 0, 2 ] { timeshift := some 1, em_syserr := none } 0
      [ { t := 2, mag := FVal.fin 0, sigma := FVal.fin 1 } ] = 1 := by
    norm_num [chi2FiltClaim, interpSeg, FVal.isfinite, FVal.toQ, List.filter]
  rw [h1, h2]
  norm_num

/-- C1 (amended): the per-filter chi-square over the window-selected detections
equals the sum of squared residuals against the UNSHIFTED trajectory
interpolated at the UNSHIFTED relative epochs, divided by
observed_uncertainty^2 + effective_error^2 with effective_error the em_syserr
posterior entry when present and the static budget otherwise: the code shifts
both the trajectory time axis and the observed epochs by timeshift, and the two
shifts cancel in the interpolation. -/
theorem filter_isfinite_shift (ts : ℚ) (pts : List Point) :
    (pts.map (fun q => ({ q with t := q.t + ts } : Point))).filter
        (fun q => q.sigma.isfinite)
      = (pts.filter (fun q => q.sigma.isfinite)).map
          (fun q => { q with t := q.t + ts }) := by
  induction pts with
  | nil => rfl
  | cons p l ih =>
    simp only [List.map_cons, List.filter_cons]
    by_cases hp : p.sigma.isfinite = true
    · simp [hp, ih]
    · simp [hp, ih]

theorem chi2_timeshift_cancels (grid magf : List ℚ) (ts : ℚ) (es : Option ℚ)
    (eb : ℚ) (d : Dataset) (fta : List String) (f : String)
    (trigger tmin tmax : ℚ) :
    chi2Filt grid magf { timeshift := some ts, em_syserr := es } eb
        (lookupD (dataProcess d fta trigger tmin tmax) f)
      = ((((lookupD (dataProcess d fta trigger tmin tmax) f).filter
            (fun q => q.sigma.isfinite)).map
            (fun q => (q.mag.toQ - interpSeg (grid.zip magf) q.t) ^ 2
              / (q.sigma.toQ ^ 2 + (es.getD eb) ^ 2))).sum,
         ((lookupD (dataProcess d fta trigger tmin tmax) f).filter
            (fun q => q.sigma.isfinite)).length) := by
  generalize lookupD (dataProcess d fta trigger tmin tmax) f = pts
  unfold chi2Filt
  dsimp only
  rw [filter_isfinite_shift, List.map_map, List.length_map]
  congr 1
  refine congrArg List.sum (List.map_congr_left ?_)
  intro q hq
  simp only [Function.comp_apply]
  rw [zip_map_add, interpSeg_shift]

theorem chi2Filt_dof (sampleTimes magf : List ℚ) (p : BestFitParams) (eb : ℚ)
    (pts : List Point) :
    (chi2Filt sampleTimes magf p eb pts).2
      = (pts.filter (fun q => q.sigma.isfinite)).length := by
  unfold chi2Filt
  cases hts : p.timeshift with
  | none => rfl
  | some ts =>
    dsimp only
    rw [filter_isfinite_shift, List.length_map]

theorem chi2Filt_dof_zero (sampleTimes magf : List ℚ) (p : BestFitParams)
    (eb : ℚ) (pts : List Point)
    (h : (chi2Filt sampleTimes magf p eb pts).2 = 0) :
    (chi2Filt sampleTimes magf p eb pts).1 = 0 := by
  rw [chi2Filt_dof, List.length_eq_zero] at h
  unfold chi2Filt
  cases hts : p.timeshift with
  | none =>
    dsimp only
    rw [h]
    rfl
  | some ts =>
    dsimp only
    rw [filter_isfinite_shift, h]
    rfl

theorem chi2_foldl (g : String → ℚ × ℕ) (hg : ∀ f, (g f).2 = 0 → (g f).1 = 0) :
    ∀ (l : List String) (a : ℚ) (b : ℕ) (s : List (String × ℚ)),
      ((l.foldl (fun acc f =>
          if 0 < (g f).2 then
            (acc.1 + (g f).1, acc.2.1 + (g f).2, acc.2.2 ++ [ (f, (g f).1 / ((g f).2 : ℚ)) ])
          else acc) (a, b, s)).1 = a + (l.map (fun f => (g f).1)).sum ∧
       (l.foldl (fun acc f =>
          if 0 < (g f).2 then
            (acc.1 + (g f).1, acc.2.1 + (g f).2, acc.2.2 ++ [ (f, (g f).1 / ((g f).2 : ℚ)) ])
          else acc) (a, b, s)).2.1 = b + (l.map (fun f => (g f).2)).sum)
  | [], a, b, s => by simp
  | f :: l, a, b, s => by
    by_cases h : 0 < (g f).2
    · rw [List.foldl_cons, if_pos h]
      have hrec := chi2_foldl g hg l (a + (g f).1) (b + (g f).2)
        (s ++ [ (f, (g f).1 / ((g f).2 : ℚ)) ])
      refine ⟨?_, ?_⟩
      · rw [hrec.1, List.map_cons, List.sum_cons]
        ring
      · rw [hrec.2, List.map_cons, List.sum_cons]
        omega
    · have h0 : (g f).2 = 0 := by omega
      have h1 : (g f).1 = 0 := hg f h0
      rw [List.foldl_cons, if_neg h]
      have hrec := chi2_foldl g hg l a b s
      refine ⟨?_, ?_⟩
      · rw [hrec.1, List.map_cons, List.sum_cons, h1]
        ring
      · rw [hrec.2, List.map_cons, List.sum_cons, h0]
        omega

/-- C8 (as claimed): the overall chi-square-per-dof computation produces no
value (Python 0.0/0.0, a ZeroDivisionError — the DataError of the spec)
exactly when the total degree-of-freedom count is zero, i.e. when no analyzed
filter has a detection inside [trigger+tmin, trigger+tmax]; otherwise it is
the sum of the per-filter chi-squares divided by the sum of the per-filter
degree-of-freedom counts. -/
theorem chi2_per_dof_total (sampleTimes : List ℚ) (mag : MagTable)
    (p : BestFitParams) (eb : List (String × ℚ)) (fta : List String)
    (d : Dataset) (trigger tmin tmax : ℚ) :
    (chi2PerDofResult sampleTimes mag p eb fta d trigger tmin tmax
      = (if (fta.map (fun f => (chi2Filt sampleTimes (lookupM mag f) p (lookupB eb f)
              (lookupD (dataProcess d fta trigger tmin tmax) f)).2)).sum = 0
         then none
         else some ((fta.map (fun f => (chi2Filt sampleTimes (lookupM mag f) p (lookupB eb f)
              (lookupD (dataProcess d fta trigger tmin tmax) f)).1)).sum
            / (((fta.map (fun f => (chi2Filt sampleTimes (lookupM mag f) p (lookupB eb f)
              (lookupD (dataProcess d fta trigger tmin tmax) f)).2)).sum : ℕ) : ℚ)))) ∧
    ((fta.map (fun f => (chi2Filt sampleTimes (lookupM mag f) p (lookupB eb f)
          (lookupD (dataProcess d fta trigger tmin tmax) f)).2)).sum = 0 ↔
      ∀ f ∈ fta, (lookupD (dataProcess d fta trigger tmin tmax) f).filter
          (fun q => q.sigma.isfinite) = []) := by
  have hg : ∀ f, (chi2Filt sampleTimes (lookupM mag f) p (lookupB eb f)
      (lookupD (dataProcess d fta trigger tmin tmax) f)).2 = 0 →
      (chi2Filt sampleTimes (lookupM mag f) p (lookupB eb f)
      (lookupD (dataProcess d fta trigger tmin tmax) f)).1 = 0 :=
    fun f => chi2Filt_dof_zero _ _ _ _ _
  have hfold := chi2_foldl
    (fun f => chi2Filt sampleTimes (lookupM mag f) p (lookupB eb f)
      (lookupD (dataProcess d fta trigger tmin tmax) f)) hg fta 0 0 []
  constructor
  · unfold chi2PerDofResult chi2Engine
    dsimp only
    rw [hfold.1, hfold.2]
    simp only [zero_add]
  · rw [List.sum_eq_zero_iff]
    constructor
    · intro h f hf
      have := h _ (List.mem_map_of_mem _ hf)
      rw [chi2Filt_dof] at this
      exact List.length_eq_zero.mp this
    · intro h x hx
      rcases List.mem_map.mp hx with ⟨f, hf, rfl⟩
      rw [chi2Filt_dof, h f hf]
      rfl

/-- Witness for `chi2_per_dof_total` at a concrete configuration with one
windowed detection. -/
theorem chi2_per_dof_total_witness :
    (chi2PerDofResult [ 0, 2 ] mC8 pC8 ebC8 [ "g" ] dC1 0 0 10
      = (if (([ "g" ] : List String).map (fun f => (chi2Filt [ 0, 2 ] (lookupM mC8 f) pC8 (lookupB ebC8 f)
              (lookupD (dataProcess dC1 [ "g" ] 0 0 10) f)).2)).sum = 0
         then none
         else some ((([ "g" ] : List String).map (fun f => (chi2Filt [ 0, 2 ] (lookupM mC8 f) pC8 (lookupB ebC8 f)
              (lookupD (dataProcess dC1 [ "g" ] 0 0 10) f)).1)).sum
            / (((([ "g" ] : List String).map (fun f => (chi2Filt [ 0, 2 ] (lookupM mC8 f) pC8 (lookupB ebC8 f)
              (lookupD (dataProcess dC1 [ "g" ] 0 0 10) f)).2)).sum : ℕ) : ℚ)))) ∧
    ((([ "g" ] : List String).map (fun f => (chi2Filt [ 0, 2 ] (lookupM mC8 f) pC8 (lookupB ebC8 f)
          (lookupD (dataProcess dC1 [ "g" ] 0 0 10) f)).2)).sum = 0 ↔
      ∀ f ∈ ([ "g" ] : List String), (lookupD (dataProcess dC1 [ "g" ] 0 0 10) f).filter
          (fun q => q.sigma.isfinite) = []) :=
  chi2_per_dof_total [ 0, 2 ] mC8 pC8 ebC8 [ "g" ] dC1 0 0 10

/-! ### Dataset ownership: theorems -/

/-- C6 counterexample: with plotting enabled, a trigger time of 3 and one
plotted g-band point at epoch 5, the stored dataset after the run differs from
the loaded one: the plot loop subtracted the trigger time from the stored
epoch column in place. -/
theorem plot_mutation_counterexample :
    runData dC6 [ "g" ] 3 true ≠ dC6 := by
  have h : runData dC6 [ "g" ] 3 true
      = [ ( "g", [ { t := 2, mag := FVal.fin 1, sigma := FVal.fin 1 } ] ) ] := by
    norm_num [runData, chi2StageData, plotStageData, filtersPlot, lookupD, dC6,
      FVal.isnan, List.filter, Point.mk.injEq]
  rw [h]
  simp only [dC6, ne_eq, List.cons.injEq, Prod.mk.injEq, Point.mk.injEq, and_true, true_and]
  norm_num

/-- C6 (amended): across one analysis run the stored per-filter magnitude and
uncertainty columns are never modified, and without plotting the whole dataset
is unchanged; but when plotting is enabled the plot loop subtracts the trigger
time from the stored epoch column of every plotted filter (the chi-square
phase operates on a deep copy and leaves the dataset intact). -/
theorem run_data_effect (d : Dataset) (fta : List String) (trigger : ℚ)
    (plot : Bool) :
    (runData d fta trigger false = d) ∧
    (runData d fta trigger plot
       = d.map (fun e =>
           if plot = true ∧ e.1 ∈ filtersPlot fta d then
             (e.1, e.2.map (fun p => { p with t := p.t - trigger }))
           else e)) ∧
    (∀ e ∈ runData d fta trigger plot,
       ∃ e0 ∈ d, e.1 = e0.1 ∧ e.2.map Point.mag = e0.2.map Point.mag ∧
         e.2.map Point.sigma = e0.2.map Point.sigma) := by
  have hmag : ∀ (pts : List Point),
      (pts.map (fun p => ({ p with t := p.t - trigger } : Point))).map Point.mag
        = pts.map Point.mag := by
    intro pts
    rw [List.map_map]
    rfl
  have hsig : ∀ (pts : List Point),
      (pts.map (fun p => ({ p with t := p.t - trigger } : Point))).map Point.sigma
        = pts.map Point.sigma := by
    intro pts
    rw [List.map_map]
    rfl
  have h2 : runData d fta trigger plot
      = d.map (fun e =>
          if plot = true ∧ e.1 ∈ filtersPlot fta d then
            (e.1, e.2.map (fun p => { p with t := p.t - trigger }))
          else e) := by
    cases plot with
    | false =>
      simp only [runData, chi2StageData, Bool.false_eq_true, if_false, false_and, ite_false]
      exact (List.map_id d).symm
    | true =>
      simp only [runData, chi2StageData, if_true, plotStageData, true_and]
  refine ⟨?_, h2, ?_⟩
  · simp only [runData, chi2StageData, Bool.false_eq_true, if_false]
  · intro e he
    rw [h2] at he
    rcases List.mem_map.mp he with ⟨e0, he0, rfl⟩
    by_cases hc : plot = true ∧ e0.1 ∈ filtersPlot fta d
    · rw [if_pos hc]
      exact ⟨e0, he0, rfl, hmag e0.2, hsig e0.2⟩
    · rw [if_neg hc]
      exact ⟨e0, he0, rfl, rfl, rfl⟩

/-! ### Injection output table: theorems -/

/-- C10: every serialized row has a finite mag_unc field; a synthesized point
with non-finite uncertainty is written as (mjd, 99.0, 99.0, filt, mag, 0.0) —
the limiting-magnitude column holding the synthesized magnitude and program_id
0.0 — so the infinite-uncertainty convention marking a non-detection is not
preserved in the table, and reloading classifies such rows as detections. -/
theorem injection_row_finite_unc (filt : String) (dl : Option FVal) (mjd : ℚ)
    (m munc : FVal) :
    (injectionOutRow filt dl mjd m munc).mag_unc.isfinite = true ∧
    (munc.isfinite = false →
      injectionOutRow filt dl mjd m munc
          = { jd := mjd, mag := FVal.fin 99, mag_unc := FVal.fin 99, filt := filt,
              limmag := m, programid := 0 } ∧
      reloadIsDetection (injectionOutRow filt dl mjd m munc) = true) := by
  cases hm : munc.isfinite with
  | false =>
    have hcond : (!munc.isfinite) = true := by
      rw [hm]
      rfl
    refine ⟨?_, fun _ => ⟨?_, ?_⟩⟩
    · unfold injectionOutRow
      rw [if_pos hcond]
      rfl
    · unfold injectionOutRow
      rw [if_pos hcond]
    · unfold injectionOutRow reloadIsDetection
      rw [if_pos hcond]
      rfl
  | true =>
    have hncond : ¬((!munc.isfinite) = true) := by
      rw [hm]
      decide
    refine ⟨?_, ?_⟩
    · unfold injectionOutRow
      rw [if_neg hncond]
      cases dl with
      | none => exact hm
      | some v => exact hm
    · intro hcon
      simp at hcon

/-- Witness for `injection_row_finite_unc` at a non-detection input. -/
theorem injection_row_finite_unc_witness :
    (injectionOutRow "g" none 1 (FVal.fin 20) (FVal.inf true)).mag_unc.isfinite = true ∧
    (injectionOutRow "g" none 1 (FVal.fin 20) (FVal.inf true)
        = { jd := 1, mag := FVal.fin 99, mag_unc := FVal.fin 99, filt := "g",
            limmag := FVal.fin 20, programid := 0 } ∧
     reloadIsDetection (injectionOutRow "g" none 1 (FVal.fin 20) (FVal.inf true)) = true) :=
  ⟨(injection_row_finite_unc "g" none 1 (FVal.fin 20) (FVal.inf true)).1,
   (injection_row_finite_unc "g" none 1 (FVal.fin 20) (FVal.inf true)).2 (by decide)⟩

/-- Witness for `run_data_effect` at a concrete run. -/
theorem run_data_effect_witness :
    ((runData dC6 [ "g" ] 3 false = dC6) ∧
     (runData dC6 [ "g" ] 3 true
        = dC6.map (fun e =>
            if true = true ∧ e.1 ∈ filtersPlot [ "g" ] dC6 then
              (e.1, e.2.map (fun p => { p with t := p.t - 3 }))
            else e)) ∧
     (∀ e ∈ runData dC6 [ "g" ] 3 true,
        ∃ e0 ∈ dC6, e.1 = e0.1 ∧ e.2.map Point.mag = e0.2.map Point.mag ∧
          e.2.map Point.sigma = e0.2.map Point.sigma)) :=
  ⟨(run_data_effect dC6 [ "g" ] 3 true).1,
   (run_data_effect dC6 [ "g" ] 3 true).2.1,
   (run_data_effect dC6 [ "g" ] 3 true).2.2⟩

end Nmma

